import Mathlib

/-!
Verification of the graph_schedule task-graph executor.

The repository has two variants of the same design:
  * `src/node_graph.h`   (classes `exec_node`, `resource_node`, `Resource<T>`,
    `ResourceRegistry`, `node_graph`), and
  * `src/framegraph2.h`  (classes `ExecNode`, `ResourceNode`, `Resource<T>`,
    `ResourceRegistry`, `FrameGraph`).

Each section below embeds the relevant fragment of the C++ source.  Machine
integers (`uint32_t` counters) are modelled as `Nat` with explicit `% 2^32`
where the source can overflow; `std::weak_ptr` lock results are modelled as
`Option`; `std::any` cells are modelled by a type tag together with the
stored contents.
-/

/-- `2^32`, the modulus of the `uint32_t` counters used in the source. -/
def u32 : Nat := 2 ^ 32

/-! ## The execution thunk (node_graph.h, `add_node`, lines 293-307)

The lambda stored in `exec_node::execute` is

    if( !rawp->m_executed )                 -- step `check`
      if( rawp->m_mutex.try_lock() )        -- step `tryl`
        rawp->m_executed = true;            -- step `setx`
        rawp->m_exec_start_time_us = ...;   -- step `stamp`
        <run payload>;                      -- step `pay`
        --rawp->m_Graph->m_numToExecute;    -- step `decr`
        rawp->m_mutex.unlock();             -- step `unl`

Two workers may run this thunk concurrently, so we embed it as a small-step
machine: each invocation is a program counter walking the micro-operations
above over the shared node state, and a scheduler interleaves two
invocations arbitrarily (sequentially consistent interleaving). -/

/-- Program counter of one invocation of the execution thunk. -/
inductive TPC
  | check
  | tryl
  | setx
  | stamp
  | pay
  | decr
  | unl
  | done
deriving DecidableEq, Repr

/-- The shared state of one `exec_node` plus its graph counter:
`m_executed`, the mutex, the start-time stamp (abstracted to a flag),
the number of payload invocations so far (instrumentation for I7),
and the graph's `m_numToExecute` (a `uint32_t`). -/
structure Shared where
  executed : Bool
  lockHeld : Bool
  stamped : Bool
  payloadRuns : Nat
  numToExecute : Nat
deriving DecidableEq, Repr

/-- One micro-step of the thunk of node_graph.h lines 293-307. -/
def microStep (sh : Shared) (pc : TPC) : Shared × TPC :=
  match pc with
  | .check => (sh, if sh.executed then .done else .tryl)
  | .tryl => if sh.lockHeld then (sh, .done) else ({ sh with lockHeld := true }, .setx)
  | .setx => ({ sh with executed := true }, .stamp)
  | .stamp => ({ sh with stamped := true }, .pay)
  | .pay => ({ sh with payloadRuns := sh.payloadRuns + 1 }, .decr)
  | .decr => ({ sh with numToExecute := (sh.numToExecute + (u32 - 1)) % u32 }, .unl)
  | .unl => ({ sh with lockHeld := false }, .done)
  | .done => (sh, .done)

/-- Two concurrent invocations of the same node's thunk. -/
structure CState where
  sh : Shared
  pcA : TPC
  pcB : TPC
deriving DecidableEq, Repr

/-- Advance one of the two invocations: `true` steps invocation A,
`false` steps invocation B. -/
def schedStep (s : CState) (t : Bool) : CState :=
  if t then
    let p := microStep s.sh s.pcA
    { s with sh := p.1, pcA := p.2 }
  else
    let p := microStep s.sh s.pcB
    { s with sh := p.1, pcB := p.2 }

/-- Run a schedule (a list of thread choices) from a state. -/
def runSched (s : CState) (l : List Bool) : CState := l.foldl schedStep s

/-- Initial state: node not executed, mutex free, both invocations at the
`!m_executed` check, `m_numToExecute = 1` for this node. -/
def initC : CState :=
  { sh := { executed := false, lockHeld := false, stamped := false,
            payloadRuns := 0, numToExecute := 1 },
    pcA := .check, pcB := .check }

/-- The racy schedule: invocation B reads `m_executed = false`, then
invocation A runs the whole thunk body to completion (lock, set executed,
stamp, payload, decrement, unlock), then B resumes: its `try_lock` now
succeeds because A has already unlocked, and B runs the payload again. -/
def raceSchedule : List Bool :=
  [false] ++ List.replicate 7 true ++ [false, false, false, false]

/-! ## `trigger` (node_graph.h lines 464-475 and framegraph2.h lines 527-534)

node_graph variant (`exec_node::trigger`):

    ++m_resourceCount;
    if( m_resourceCount >= m_requiredResources.size())
      if(!m_scheduled)
        m_scheduled = true;
        m_Graph->schedule_node(this);

framegraph2 variant (`ExecNode::trigger`) — note: no `m_scheduled` flag:

    ++m_resourceCount;
    if( m_resourceCount >= m_requiredResources.size())
      m_Graph->append_node(this);

`m_resourceCount` is a `uint32_t`; `schedCalls` counts hand-offs to the
graph's scheduler (`schedule_node` resp. `append_node`). -/

/-- State of one node's trigger protocol: `m_resourceCount`, `m_scheduled`,
and the number of times the node was handed to the scheduler. -/
structure TrigState where
  count : Nat
  scheduled : Bool
  schedCalls : Nat
deriving DecidableEq, Repr

/-- `exec_node::trigger` of node_graph.h, for a node with `reqLen` required
resources. -/
def ngTrigger (reqLen : Nat) (s : TrigState) : TrigState :=
  let c := (s.count + 1) % u32
  if reqLen ≤ c then
    if s.scheduled then { s with count := c }
    else { count := c, scheduled := true, schedCalls := s.schedCalls + 1 }
  else { s with count := c }

/-- `ExecNode::trigger` of framegraph2.h: same counter, but there is no
`m_scheduled` flag, the node is appended whenever the count has reached the
required length. -/
def fgTrigger (reqLen : Nat) (s : TrigState) : TrigState :=
  let c := (s.count + 1) % u32
  if reqLen ≤ c then { s with count := c, schedCalls := s.schedCalls + 1 }
  else { s with count := c }

/-- Fresh node state after construction: count 0, not scheduled. -/
def initTrig : TrigState := { count := 0, scheduled := false, schedCalls := 0 }

/-! ## `Resource<T>::make_available` (node_graph.h lines 144-155)

    auto node = m_node.lock();
    if( node )
      if( !node->is_available() )
        node->make_available();        -- sets m_is_available, stamps time
        node->notify_dependents();     -- lines 122-129: for N in m_Nodes,
                                       --   if auto n = N.lock(): n->trigger()

The weak handle `m_node` is modelled as `Option RNode` (`none` = expired);
the weak back-references in `m_Nodes` are `Option Nat` (`none` = expired,
`some i` = live node `i`).  The clock is passed in as `now`. -/

/-- A `resource_node` of node_graph.h: availability flag, `m_time_available`
(`none` until first stamped), and the `m_Nodes` dependent list. -/
structure RNode where
  isAvailable : Bool
  timeAvailable : Option Nat
  dependents : List (Option Nat)
deriving DecidableEq, Repr

/-- `resource_node::make_available(true)`: set the flag and stamp the time. -/
def nodeMakeAvailable (now : Nat) (r : RNode) : RNode :=
  { r with isAvailable := true, timeAvailable := some now }

/-- `resource_node::notify_dependents`: the sequence of `trigger()` targets,
in list order, skipping expired weak references. -/
def notifyDependents (r : RNode) : List Nat := r.dependents.filterMap id

/-- `Resource<T>::make_available` of node_graph.h: returns the new state of
the (possibly expired) underlying node together with the ordered list of
node ids whose `trigger()` was invoked. -/
def handleMakeAvailable (now : Nat) (h : Option RNode) : Option RNode × List Nat :=
  match h with
  | none => (none, [])
  | some r =>
    if r.isAvailable then (some r, [])
    else
      let r' := nodeMakeAvailable now r
      (some r', notifyDependents r')

/-! ## Theorems for claims C1, C2, C3, C10 -/

/-- Claim C1 — the claim is right about the intent but the code has a
check-then-act race: under the interleaving `raceSchedule`, invocation B
reads `m_executed = false`, invocation A then runs the whole thunk
(acquiring and releasing the mutex), and B's subsequent `try_lock` succeeds
on the now-free mutex, so B runs the payload a second time.  Evaluating the
embedded thunk machine on this concrete schedule yields two payload runs,
contradicting "two invocations of the thunk never both run the payload"
(I7) and the source's own comment that the mutex prevents the node from
executing twice. -/
theorem c1_thunk_double_execution :
    (runSched initC raceSchedule).sh.payloadRuns = 2 := by decide

/-- Claim C2 counterexample — in the framegraph2.h variant (`ExecNode`),
there is no `scheduled` flag: for a node with one required resource, a
second call to `trigger()` hands the node to the scheduler again
(`append_node` is called twice), so "any later trigger calls do not
schedule the node again" is false for `ExecNode::trigger`. -/
theorem c2_fg_double_schedule :
    (fgTrigger 1 (fgTrigger 1 initTrig)).schedCalls = 2 := by decide

/-- After `k < 2^32` triggers, a node_graph `exec_node` with `0 < L`
required resources has count `k`, is scheduled iff `L ≤ k`, and was handed
to the scheduler once if `L ≤ k` and never otherwise. -/
theorem ngTrigger_run (L : Nat) (hL : 0 < L) :
    ∀ k, k < u32 →
      (ngTrigger L)^[k] initTrig =
        ⟨k, decide (L ≤ k), if L ≤ k then 1 else 0⟩ := by
  intro k
  induction k with
  | zero =>
    intro _
    have h0 : ¬ (L ≤ 0) := by omega
    simp [initTrig, h0]
  | succ k ih =>
    intro hk
    rw [Function.iterate_succ_apply', ih (Nat.lt_of_succ_lt hk)]
    have hmod : (k + 1) % u32 = k + 1 := Nat.mod_eq_of_lt hk
    by_cases hLk : L ≤ k
    · have hLk1 : L ≤ k + 1 := Nat.le_succ_of_le hLk
      simp [ngTrigger, hmod, hLk, hLk1]
    · by_cases hLk1 : L ≤ k + 1
      · simp [ngTrigger, hmod, hLk, hLk1]
      · simp [ngTrigger, hmod, hLk, hLk1]

/-- Claim C2 amended — in the node_graph variant (`exec_node::trigger`),
each call increments the arrival count by exactly one (mod `2^32`), and the
node is handed to the scheduler exactly once per pass, on the call where
the count first reaches the required-list length `L` while `scheduled` is
still false; later calls never schedule it again.  In the framegraph2
variant (`ExecNode::trigger`) there is no `scheduled` flag and every
trigger call whose incremented count reaches `L` appends the node to the
ready queue again. -/
theorem c2_trigger_amended (L k : Nat) (hL : 0 < L) (hk : k < u32) :
    ((ngTrigger L)^[k] initTrig).count = k ∧
    ((ngTrigger L)^[k] initTrig).schedCalls = (if L ≤ k then 1 else 0) ∧
    ((ngTrigger L)^[k] initTrig).scheduled = decide (L ≤ k) ∧
    (∀ s : TrigState, (ngTrigger L s).count = (s.count + 1) % u32) ∧
    (∀ s : TrigState, L ≤ (s.count + 1) % u32 →
        (fgTrigger L s).schedCalls = s.schedCalls + 1) := by
  rw [ngTrigger_run L hL k hk]
  refine ⟨rfl, rfl, rfl, ?_, ?_⟩
  · intro s
    unfold ngTrigger
    by_cases h1 : L ≤ (s.count + 1) % u32
    · by_cases h2 : s.scheduled <;> simp [h1, h2]
    · simp [h1]
  · intro s hs
    unfold fgTrigger
    simp [hs]

/-- Witness for `c2_trigger_amended` at `L = 2`, `k = 3`. -/
theorem c2_trigger_amended_witness :
    ((ngTrigger 2)^[3] initTrig).schedCalls = (if 2 ≤ 3 then 1 else 0) :=
  (c2_trigger_amended 2 3 (by decide) (by decide)).2.1

/-- Claim C3 — `Resource<T>::make_available` (node_graph.h) is idempotent
within one pass: on an already-available cell it is a no-op; on the
false-to-true transition it stamps `time_available` from the clock and
invokes `trigger()` on exactly the live dependents, in registration order,
each exactly once (the dependent list having no duplicates); and a second
call — on any handle — changes nothing and triggers nobody. -/
theorem c3_make_available_idempotent (now now2 : Nat) (r : RNode)
    (hA : r.isAvailable = false) (hN : (notifyDependents r).Nodup) :
    (∀ q : RNode, q.isAvailable = true →
        handleMakeAvailable now (some q) = (some q, [])) ∧
    (handleMakeAvailable now (some r)).2 = notifyDependents r ∧
    (handleMakeAvailable now (some r)).1 =
      some { r with isAvailable := true, timeAvailable := some now } ∧
    (∀ n, n ∈ notifyDependents r →
        ((handleMakeAvailable now (some r)).2.count n = 1)) ∧
    (∀ h : Option RNode,
        handleMakeAvailable now2 (handleMakeAvailable now h).1 =
          ((handleMakeAvailable now h).1, [])) := by
  refine ⟨?_, ?_, ?_, ?_, ?_⟩
  · intro q hq
    simp [handleMakeAvailable, hq]
  · simp [handleMakeAvailable, hA, nodeMakeAvailable, notifyDependents]
  · simp [handleMakeAvailable, hA, nodeMakeAvailable]
  · intro n hn
    have h2 : (handleMakeAvailable now (some r)).2 = notifyDependents r := by
      simp [handleMakeAvailable, hA, nodeMakeAvailable, notifyDependents]
    rw [h2]
    exact List.count_eq_one_of_mem hN hn
  · intro h
    match h with
    | none => simp [handleMakeAvailable]
    | some q =>
      by_cases hq : q.isAvailable
      · simp [handleMakeAvailable, hq]
      · simp [handleMakeAvailable, hq, nodeMakeAvailable]

/-- Witness for `c3_make_available_idempotent` on a concrete resource node
with dependents `[some 1, none, some 2]` (node 1 live, one expired
reference, node 2 live). -/
theorem c3_make_available_idempotent_witness :
    (handleMakeAvailable 5 (some ⟨false, none, [some 1, none, some 2]⟩)).2 =
      notifyDependents ⟨false, none, [some 1, none, some 2]⟩ :=
  (c3_make_available_idempotent 5 6 ⟨false, none, [some 1, none, some 2]⟩
    (by decide) (by decide)).2.1

/-- Claim C10 — calling `Resource<T>::make_available` (node_graph.h) on a
handle whose underlying `resource_node` has expired (`m_node.lock()`
returns null) is a silent no-op: nothing is published, no dependent is
triggered, and no error is signalled (the function returns normally). -/
theorem c10_expired_handle_noop (now : Nat) :
    handleMakeAvailable now none = (none, []) := rfl

/-! ## The serial executor (framegraph2.h, `FrameGraph::execute_serial`,
lines 416-433)

    for(auto & N : m_execNodes)
      if( N->m_requiredResources.size() == 0)
        m_ToExecute.push(N.get());
    while( m_ToExecute.size() )
      m_ToExecute.front()->execute();
      m_ToExecute.pop();

The thunk invoked by the drain loop is the framegraph2 `execute` lambda
(lines 371-386; serially the try-lock always succeeds), the payload calls
`Resource<T>::set(x, true)` (lines 193-198) which writes the cell and calls
`make_available` (lines 167-180), which triggers each dependent
(`ExecNode::trigger`, lines 527-534 — no `scheduled` flag).  Nodes and
resources are identified by their index; payloads are embedded as lists of
`set` actions whose right-hand sides are integer expressions over resource
cells, which is what the test pipeline's payloads do. -/

/-- Right-hand side of a payload `set` action: an integer expression over
the current resource values. -/
inductive Expr
  | const (n : Int)
  | add (a b : Expr)
  | mul (a b : Expr)
  | res (r : Nat)
deriving DecidableEq, Repr

/-- Evaluate an expression over the resource value cells (a read of an
out-of-range id yields the default-constructed `int`, i.e. 0). -/
def evalExpr (vals : List Int) : Expr → Int
  | .const n => n
  | .add a b => evalExpr vals a + evalExpr vals b
  | .mul a b => evalExpr vals a * evalExpr vals b
  | .res r => (vals.get? r).getD 0

/-- A static `ExecNode`: its required-resource id list and its payload, a
sequence of `set(resource, expr)` actions (each followed by
`make_available`). -/
structure SNode where
  required : List Nat
  payload : List (Nat × Expr)
deriving DecidableEq, Repr

/-- A static FrameGraph: nodes in `AddNode` order, the dependent-node list
of each resource (`ResourceNode::m_Nodes`, in registration order), and the
initial resource values. -/
structure SGraph where
  nodes : List SNode
  deps : List (List Nat)
  initVals : List Int
deriving DecidableEq, Repr

/-- Dynamic execution state: resource values and availability flags, the
per-node `m_executed` flags and `m_resourceCount` counters, the FIFO
`m_ToExecute` queue, and the order in which payloads ran. -/
structure SExec where
  vals : List Int
  avail : List Bool
  executed : List Bool
  counts : List Nat
  queue : List Nat
  order : List Nat
deriving DecidableEq, Repr

/-- Length of node `n`'s required list. -/
def reqLen (g : SGraph) (n : Nat) : Nat :=
  ((g.nodes.get? n).map (fun nd => nd.required.length)).getD 0

/-- `ExecNode::trigger` (framegraph2.h lines 527-534): increment the
`uint32_t` counter; if it has reached the required length, append the node
to the ready queue (no `scheduled` flag exists in this variant). -/
def triggerNode (g : SGraph) (st : SExec) (n : Nat) : SExec :=
  let c := (st.counts.getD n 0 + 1) % u32
  let st' := { st with counts := st.counts.set n c }
  if reqLen g n ≤ c then { st' with queue := st'.queue ++ [n] } else st'

/-- `Resource<T>::make_available` (framegraph2.h lines 167-180): if not yet
available, set the flag and trigger every dependent node in list order. -/
def makeAvailableRes (g : SGraph) (st : SExec) (r : Nat) : SExec :=
  if st.avail.getD r false then st
  else
    let st' := { st with avail := st.avail.set r true }
    (g.deps.getD r []).foldl (fun s n => triggerNode g s n) st'

/-- `Resource<T>::set(x, true)` (framegraph2.h lines 193-198): write the
cell, then `make_available`. -/
def setRes (g : SGraph) (st : SExec) (r : Nat) (e : Expr) : SExec :=
  let st' := { st with vals := st.vals.set r (evalExpr st.vals e) }
  makeAvailableRes g st' r

/-- Run node `i`'s payload: its `set` actions in order. -/
def runPayload (g : SGraph) (st : SExec) (i : Nat) : SExec :=
  (((g.nodes.get? i).map SNode.payload).getD []).foldl
    (fun s p => setRes g s p.1 p.2) st

/-- The execute thunk (framegraph2.h lines 371-386) as invoked serially:
the try-lock always succeeds, so the body runs unless `m_executed` is
already set. -/
def thunk (g : SGraph) (st : SExec) (i : Nat) : SExec :=
  if st.executed.getD i false then st
  else
    let st' := { st with executed := st.executed.set i true,
                         order := st.order ++ [i] }
    runPayload g st' i

/-- The drain loop of `execute_serial`: invoke the front node's thunk (new
nodes are appended at the back while it runs), then pop the front.  `fuel`
bounds the number of iterations; the concrete runs below end with an empty
queue well inside their fuel. -/
def drain (g : SGraph) : Nat → SExec → SExec
  | 0, st => st
  | fuel + 1, st =>
    match st.queue with
    | [] => st
    | i :: _ =>
      let st' := thunk g st i
      drain g fuel { st' with queue := st'.queue.tail }

/-- The seeding loop of `execute_serial`: push every node whose required
list is empty, in node order (`b` is the index of the first node of `l`). -/
def seedAux : Nat → List SNode → List Nat
  | _, [] => []
  | b, nd :: rest =>
    if nd.required = [] then b :: seedAux (b + 1) rest else seedAux (b + 1) rest

/-- The seeded ready queue of `execute_serial`. -/
def seedQueue (g : SGraph) : List Nat := seedAux 0 g.nodes

/-- Execution state right after graph construction. -/
def initExec (g : SGraph) : SExec :=
  { vals := g.initVals,
    avail := List.replicate g.initVals.length false,
    executed := List.replicate g.nodes.length false,
    counts := List.replicate g.nodes.length 0,
    queue := seedQueue g,
    order := [] }

/-- `FrameGraph::execute_serial` (lines 416-433), with a fuel bound on the
drain loop. -/
def executeSerial (g : SGraph) (fuel : Nat) : SExec :=
  drain g fuel (initExec g)

/-- The three-node linear pipeline of the spec's end-to-end scenario 1:
resource ids x = 0, y = 1, z = 2; node A = 0 produces x = 1, node B = 1
consumes x and produces y = x + 2, node C = 2 consumes y and produces
z = y * 3.  Dependents: x triggers B, y triggers C. -/
def pipelineGraph : SGraph :=
  { nodes := [ { required := [], payload := [(0, .const 1)] },
               { required := [0], payload := [(1, .add (.res 0) (.const 2))] },
               { required := [1], payload := [(2, .mul (.res 1) (.const 3))] } ],
    deps := [[1], [2], []],
    initVals := [0, 0, 0] }

/-- A graph with an unmet dependency: node 0 has no inputs and produces
resource 1; node 1 requires resource 0, which no node ever produces.
Dependents: resource 0 triggers node 1, resource 1 triggers nobody. -/
def unmetGraph : SGraph :=
  { nodes := [ { required := [], payload := [(1, .const 5)] },
               { required := [0], payload := [] } ],
    deps := [[1], []],
    initVals := [0, 0] }

/-- Membership in the seeded queue: `i ∈ seedAux b l` iff position `i - b`
of `l` holds a node with an empty required list. -/
theorem seedAux_mem (i : Nat) (l : List SNode) : ∀ b : Nat,
    i ∈ seedAux b l ↔
      ∃ j, ∃ nd, l.get? j = some nd ∧ nd.required = [] ∧ i = b + j := by
  induction l with
  | nil =>
    intro b
    simp [seedAux]
  | cons nd rest ih =>
    intro b
    by_cases hreq : nd.required = []
    · rw [seedAux, if_pos hreq]
      rw [List.mem_cons, ih (b + 1)]
      constructor
      · rintro (h | ⟨j, nd', hg, hr, hi⟩)
        · exact ⟨0, nd, rfl, hreq, by omega⟩
        · exact ⟨j + 1, nd', hg, hr, by omega⟩
      · rintro ⟨j, nd', hg, hr, hi⟩
        cases j with
        | zero =>
          left
          omega
        | succ j' =>
          right
          exact ⟨j', nd', hg, hr, by omega⟩
    · rw [seedAux, if_neg hreq]
      rw [ih (b + 1)]
      constructor
      · rintro ⟨j, nd', hg, hr, hi⟩
        exact ⟨j + 1, nd', hg, hr, by omega⟩
      · rintro ⟨j, nd', hg, hr, hi⟩
        cases j with
        | zero =>
          exfalso
          simp only [List.get?] at hg
          cases hg
          exact hreq hr
        | succ j' =>
          exact ⟨j', nd', hg, hr, by omega⟩

/-- Claim C4 — `execute_serial` seeds the FIFO queue with exactly the nodes
whose required-resource list is empty, and on the three-node linear
pipeline (A produces x = 1, B consumes x and produces y = x + 2, C consumes
y and produces z = y * 3) the nodes execute in order A, B, C, the drain
ends with an empty queue, and afterwards x = 1, y = 3, z = 9. -/
theorem c4_execute_serial_pipeline (g : SGraph) (i : Nat) :
    (i ∈ seedQueue g ↔ ∃ nd, g.nodes.get? i = some nd ∧ nd.required = []) ∧
    (executeSerial pipelineGraph 10).order = [0, 1, 2] ∧
    (executeSerial pipelineGraph 10).vals = [1, 3, 9] ∧
    (executeSerial pipelineGraph 10).queue = [] := by
  refine ⟨?_, by decide, by decide, by decide⟩
  rw [seedQueue, seedAux_mem i g.nodes 0]
  constructor
  · rintro ⟨j, nd, hg, hr, hi⟩
    have hji : j = i := by omega
    subst hji
    exact ⟨nd, hg, hr⟩
  · rintro ⟨nd, hg, hr⟩
    exact ⟨i, nd, hg, hr, by omega⟩

/-- Witness for `c4_execute_serial_pipeline`: node 0 (empty required list)
is in the pipeline's seeded queue. -/
theorem c4_execute_serial_pipeline_witness : 0 ∈ seedQueue pipelineGraph :=
  ((c4_execute_serial_pipeline pipelineGraph 0).1).mpr
    ⟨{ required := [], payload := [(0, .const 1)] }, rfl, rfl⟩

/-- Claim C8 counterexample — with a required resource that no node
produces (`unmetGraph`: node 1 requires resource 0, which nobody sets),
`execute_serial` does not surface any failure before running payloads: node
0's payload does execute (the run order is nonempty), and the entrypoint
simply completes with node 1 silently never executed.  This refutes
"surfaces UnmetDependency as a failed result before any worker runs (and
before any node payload executes)": the source performs no such check and
`execute_serial` returns `void`. -/
theorem c8_counterexample :
    (executeSerial unmetGraph 10).order ≠ [] ∧
    (executeSerial unmetGraph 10).executed = [true, false] := by
  refine ⟨by decide, by decide⟩

/-- Claim C8 amended — `execute_serial` performs no producer check and has
no failure channel: on `unmetGraph` the drain completes normally (empty
queue), node 0 runs and publishes its output, and node 1 — whose required
resource has no producer — is silently never executed. -/
theorem c8_no_unmet_dependency_check :
    (executeSerial unmetGraph 10).queue = [] ∧
    (executeSerial unmetGraph 10).order = [0] ∧
    (executeSerial unmetGraph 10).executed = [true, false] ∧
    (executeSerial unmetGraph 10).vals = [0, 5] := by
  refine ⟨by decide, by decide, by decide, by decide⟩

/-! ## The resource registry (node_graph.h lines 196-251, framegraph2.h
lines 221-285)

A resource cell's `std::any` contents are modelled by a type tag `Ty`:
`make_any<T>()` gives tag `T`; the framegraph2 `create_FutureResource`
stores a `std::shared_ptr<Resource<T>>` in the fresh cell, modelled by the
distinct tag `Ty.res T`.  `std::any_cast<T&>` succeeds exactly when the
stored tag equals `T`.  Construction is replayed as a list of declarations
(`promise` = `create_PromiseResource`, `future` = `create_FutureResource`)
by node id and resource name; `required`/`produced` record the edge lists
pushed on the node side, and each cell records its `m_Nodes` dependents. -/

/-- Type tags for the type-erased resource cells. -/
inductive Ty
  | tInt
  | tBool
  | res (t : Ty)
deriving DecidableEq, Repr

/-- One registration call made from a node's `registerResources`. -/
inductive Decl
  | promise (node : Nat) (name : String) (tag : Ty)
  | future (node : Nat) (name : String) (tag : Ty)
deriving DecidableEq, Repr

/-- Does this declaration register `n` as a consumer of `r`
(a `create_FutureResource` call by node `n` for name `r`)? -/
def Decl.futureFor : Decl → Nat → String → Bool
  | .future n0 r0 _, n, r => decide (n0 = n ∧ r0 = r)
  | _, _, _ => false

/-- A `resource_node` cell as the registry sees it: the tag of its
`std::any` contents and its `m_Nodes` dependent list in push order. -/
structure Cell where
  tag : Ty
  deps : List Nat
deriving DecidableEq, Repr

/-- Registry build state: the name-to-cell map (`m_resources`) and the
required/produced edge lists pushed on the node side. -/
structure BState where
  cells : List (String × Cell)
  required : List (Nat × String)
  produced : List (Nat × String)
deriving DecidableEq, Repr

/-- Lookup in the name-to-cell map (`m_resources.count` / `at`). -/
def findCell : List (String × Cell) → String → Option Cell
  | [], _ => none
  | (k, c) :: rest, r => if k = r then some c else findCell rest r

/-- Replace the cell bound to a name (mutation through `m_resources[name]`). -/
def updateCell : List (String × Cell) → String → Cell → List (String × Cell)
  | [], _, _ => []
  | (k, c) :: rest, r, c' =>
    if k = r then (k, c') :: rest else (k, c) :: updateCell rest r c'

/-- One registration call of node_graph.h (lines 196-251).
`create_PromiseResource<T>`: fresh name interns a cell with a
default-constructed `T` and empty dependents; either way the resource is
pushed onto the node's produced list and no dependent is added.
`create_FutureResource<T>`: fresh name interns a cell with a
default-constructed `T` and the node as first dependent; an existing cell
gets the node pushed onto its dependents; either way the resource is
pushed onto the node's required list.  No branch compares type tags. -/
def applyDecl (s : BState) : Decl → BState
  | .promise n r t =>
    match findCell s.cells r with
    | none => { s with cells := (r, ⟨t, []⟩) :: s.cells,
                       produced := s.produced ++ [(n, r)] }
    | some _ => { s with produced := s.produced ++ [(n, r)] }
  | .future n r t =>
    match findCell s.cells r with
    | none => { s with cells := (r, ⟨t, [n]⟩) :: s.cells,
                       required := s.required ++ [(n, r)] }
    | some c => { s with cells := updateCell s.cells r ⟨c.tag, c.deps ++ [n]⟩,
                         required := s.required ++ [(n, r)] }

/-- Replay a construction sequence from the empty registry (node_graph.h). -/
def buildGraph (ds : List Decl) : BState := ds.foldl applyDecl ⟨[], [], []⟩

/-- One registration call of framegraph2.h (lines 221-285).  Differences
from node_graph.h: the `ExecNode` has no produced list, and a fresh
`create_FutureResource<T>` stores `std::make_shared<Resource<T>>()` in the
cell — tag `Ty.res t` — instead of a default-constructed `T`. -/
def fgApplyDecl (s : BState) : Decl → BState
  | .promise _ r t =>
    match findCell s.cells r with
    | none => { s with cells := (r, ⟨t, []⟩) :: s.cells }
    | some _ => s
  | .future n r t =>
    match findCell s.cells r with
    | none => { s with cells := (r, ⟨.res t, [n]⟩) :: s.cells,
                       required := s.required ++ [(n, r)] }
    | some c => { s with cells := updateCell s.cells r ⟨c.tag, c.deps ++ [n]⟩,
                         required := s.required ++ [(n, r)] }

/-- Replay a construction sequence from the empty registry (framegraph2.h). -/
def fgBuild (ds : List Decl) : BState := ds.foldl fgApplyDecl ⟨[], [], []⟩

/-- The dependent list of the cell named `r` (empty if the name is absent). -/
def depsOf (s : BState) (r : String) : List Nat :=
  ((findCell s.cells r).map Cell.deps).getD []

/-- The tag of the cell named `r`. -/
def tagOf (s : BState) (r : String) : Option Ty :=
  (findCell s.cells r).map Cell.tag

/-- `std::any_cast<T&>` on the cell named `r`: succeeds iff the stored tag
is exactly `t`. -/
def anyCastOk (s : BState) (r : String) (t : Ty) : Bool :=
  match findCell s.cells r with
  | some c => if c.tag = t then true else false
  | none => false

/-! ## `node_graph::reset` (node_graph.h lines 330-341)

    void reset(bool destroy_resources = false)
      for(auto & N : m_exec_nodes)
        N->m_executed = false;
        N->m_scheduled = false;
      for(auto & N : m_resources)
        N.second->make_available(false);   -- clears the flag, stamps time

Note what the body does NOT do: it never touches `m_resourceCount`, and the
`destroy_resources` parameter is never read. -/

/-- The per-node state `reset` is concerned with. -/
structure NGNode where
  executed : Bool
  scheduled : Bool
  resourceCount : Nat
deriving DecidableEq, Repr

/-- The per-resource state `reset` is concerned with (`value` stands for
the `std::any` contents). -/
structure NGRes where
  isAvailable : Bool
  timeAvailable : Option Nat
  value : Int
deriving DecidableEq, Repr

/-- A node_graph as `reset` sees it. -/
structure NGGraph where
  nodes : List NGNode
  resources : List NGRes
deriving DecidableEq, Repr

/-- `node_graph::reset` (lines 330-341): clear `m_executed` and
`m_scheduled` on every node, call `make_available(false)` on every resource
(clearing the flag and stamping `m_time_available` with the clock `now`).
The `destroyResources` argument is accepted but never read, exactly as in
the source. -/
def ngReset (now : Nat) (g : NGGraph) (destroyResources : Bool) : NGGraph :=
  { nodes := g.nodes.map (fun n => { n with executed := false, scheduled := false }),
    resources := g.resources.map
      (fun r => { r with isAvailable := false, timeAvailable := some now }) }

/-- A one-node, one-resource graph in mid-execution state: the node has
been triggered three times and run, the resource holds 7 and is available. -/
def c6Graph : NGGraph :=
  { nodes := [{ executed := true, scheduled := true, resourceCount := 3 }],
    resources := [{ isAvailable := true, timeAvailable := some 1, value := 7 }] }

/-- Unfolding lemma for `findCell` on a nonempty map. -/
theorem findCell_cons (k : String) (c : Cell) (rest : List (String × Cell))
    (r : String) :
    findCell ((k, c) :: rest) r = if k = r then some c else findCell rest r := rfl

/-- `updateCell` at one name leaves lookups of other names unchanged. -/
theorem findCell_updateCell_ne (cells : List (String × Cell)) (r0 r : String)
    (c' : Cell) (h : r0 ≠ r) :
    findCell (updateCell cells r0 c') r = findCell cells r := by
  induction cells with
  | nil => rfl
  | cons p rest ih =>
    obtain ⟨k, c⟩ := p
    by_cases hk : k = r0
    · subst hk
      rw [updateCell, if_pos rfl, findCell_cons, findCell_cons, if_neg h, if_neg h]
    · rw [updateCell, if_neg hk, findCell_cons, findCell_cons, ih]

/-- `updateCell` at a bound name makes its lookup return the new cell. -/
theorem findCell_updateCell_self (cells : List (String × Cell)) (r0 : String)
    (c c' : Cell) (h : findCell cells r0 = some c) :
    findCell (updateCell cells r0 c') r0 = some c' := by
  induction cells with
  | nil => simp [findCell] at h
  | cons p rest ih =>
    obtain ⟨k, cc⟩ := p
    by_cases hk : k = r0
    · subst hk
      rw [updateCell, if_pos rfl, findCell_cons, if_pos rfl]
    · rw [findCell_cons, if_neg hk] at h
      rw [updateCell, if_neg hk, findCell_cons, if_neg hk, ih h]

/-- Invariant I3 over a build state: every consumer edge pushed on the node
side has a matching entry in the cell's dependent list. -/
def inv3 (s : BState) : Prop :=
  ∀ n r, (n, r) ∈ s.required → ∃ c, findCell s.cells r = some c ∧ n ∈ c.deps

/-- One registration call preserves invariant I3. -/
theorem inv3_applyDecl (s : BState) (d : Decl) (h : inv3 s) :
    inv3 (applyDecl s d) := by
  cases d with
  | promise n0 r0 t0 =>
    cases hf : findCell s.cells r0 with
    | none =>
      intro n r hmem
      simp only [applyDecl, hf] at hmem ⊢
      obtain ⟨c, hc, hn⟩ := h n r hmem
      refine ⟨c, ?_, hn⟩
      rw [findCell_cons]
      by_cases hr : r0 = r
      · subst hr
        rw [hf] at hc
        cases hc
      · rw [if_neg hr, hc]
    | some c0 =>
      intro n r hmem
      simp only [applyDecl, hf] at hmem ⊢
      exact h n r hmem
  | future n0 r0 t0 =>
    cases hf : findCell s.cells r0 with
    | none =>
      intro n r hmem
      simp only [applyDecl, hf, List.mem_append, List.mem_singleton,
        Prod.mk.injEq] at hmem ⊢
      rcases hmem with hmem | ⟨hn, hr⟩
      · obtain ⟨c, hc, hn⟩ := h n r hmem
        refine ⟨c, ?_, hn⟩
        rw [findCell_cons]
        by_cases hrr : r0 = r
        · rw [hrr] at hf
          rw [hf] at hc
          cases hc
        · rw [if_neg hrr, hc]
      · refine ⟨⟨t0, [n0]⟩, ?_, ?_⟩
        · rw [hr, findCell_cons, if_pos rfl]
        · rw [hn]
          simp
    | some c0 =>
      intro n r hmem
      simp only [applyDecl, hf, List.mem_append, List.mem_singleton,
        Prod.mk.injEq] at hmem ⊢
      rcases hmem with hmem | ⟨hn, hr⟩
      · obtain ⟨c, hc, hn⟩ := h n r hmem
        by_cases hrr : r0 = r
        · rw [← hrr] at hc
          rw [hf] at hc
          injection hc with hc
          refine ⟨⟨c0.tag, c0.deps ++ [n0]⟩, ?_, ?_⟩
          · rw [← hrr]
            exact findCell_updateCell_self s.cells r0 c0 ⟨c0.tag, c0.deps ++ [n0]⟩ hf
          · simp only [List.mem_append]
            left
            rw [hc]
            exact hn
        · exact ⟨c, by rw [findCell_updateCell_ne s.cells r0 r _ hrr]; exact hc, hn⟩
      · refine ⟨⟨c0.tag, c0.deps ++ [n0]⟩, ?_, ?_⟩
        · rw [hr]
          exact findCell_updateCell_self s.cells r0 c0 ⟨c0.tag, c0.deps ++ [n0]⟩ hf
        · rw [hn]
          simp

/-- Invariant I3 is preserved by a whole construction sequence. -/
theorem inv3_foldl (ds : List Decl) : ∀ s, inv3 s → inv3 (ds.foldl applyDecl s) := by
  induction ds with
  | nil => intro s h; exact h
  | cons d rest ih => intro s h; exact ih (applyDecl s d) (inv3_applyDecl s d h)

/-- A registration call that is not a future declaration of `r` by `n`
never puts `n` into `r`'s dependent list. -/
theorem not_dep_applyDecl (s : BState) (d : Decl) (n : Nat) (r : String)
    (hd : Decl.futureFor d n r = false) (h : n ∉ depsOf s r) :
    n ∉ depsOf (applyDecl s d) r := by
  cases d with
  | promise n0 r0 t0 =>
    cases hf : findCell s.cells r0 with
    | none =>
      simp only [applyDecl, hf, depsOf] at h ⊢
      rw [findCell_cons]
      by_cases hr : r0 = r
      · subst hr
        simp
      · rw [if_neg hr]
        exact h
    | some c0 =>
      simp only [applyDecl, hf, depsOf] at h ⊢
      exact h
  | future n0 r0 t0 =>
    have hne : ¬ (n0 = n ∧ r0 = r) := by
      have := of_decide_eq_false hd
      exact this
    cases hf : findCell s.cells r0 with
    | none =>
      simp only [applyDecl, hf, depsOf] at h ⊢
      rw [findCell_cons]
      by_cases hr : r0 = r
      · subst hr
        have hn0 : n0 ≠ n := fun hn0 => hne ⟨hn0, rfl⟩
        simp [Ne.symm hn0]
      · rw [if_neg hr]
        exact h
    | some c0 =>
      simp only [applyDecl, hf, depsOf] at h ⊢
      by_cases hr : r0 = r
      · subst hr
        have hn0 : n0 ≠ n := fun hn0 => hne ⟨hn0, rfl⟩
        rw [findCell_updateCell_self s.cells r0 c0 ⟨c0.tag, c0.deps ++ [n0]⟩ hf]
        rw [hf] at h
        intro hmem
        have hmem' : n ∈ c0.deps ++ [n0] := hmem
        rcases List.mem_append.mp hmem' with h1 | h1
        · exact h h1
        · exact hn0 (List.mem_singleton.mp h1).symm
      · rw [findCell_updateCell_ne s.cells r0 r _ hr]
        exact h

/-- Over a whole construction sequence: a node that never declares `r` as
an input never appears in `r`'s dependent list. -/
theorem not_dep_foldl (ds : List Decl) (n : Nat) (r : String) :
    ∀ s, (∀ d ∈ ds, Decl.futureFor d n r = false) → n ∉ depsOf s r →
      n ∉ depsOf (ds.foldl applyDecl s) r := by
  induction ds with
  | nil => intro s _ h; exact h
  | cons d rest ih =>
    intro s hall h
    exact ih (applyDecl s d) (fun d' hd' => hall d' (List.mem_cons_of_mem d hd'))
      (not_dep_applyDecl s d n r (hall d (List.mem_cons_self d rest)) h)

/-- Claim C5 — after construction (node_graph.h registry, lines 196-251):
if node `n` declared resource `r` as an input then `r`'s dependent list
contains `n` (I3); and a node that only produced `r` (never declared it as
an input) is absent from `r`'s dependent list, because
`create_PromiseResource` never adds the node to the dependents (I2). -/
theorem c5_registration_edges (ds : List Decl) (n : Nat) (r : String) :
    ((n, r) ∈ (buildGraph ds).required → n ∈ depsOf (buildGraph ds) r) ∧
    ((∀ d ∈ ds, Decl.futureFor d n r = false) → n ∉ depsOf (buildGraph ds) r) := by
  constructor
  · intro hmem
    have hinv : inv3 (buildGraph ds) := by
      apply inv3_foldl
      intro n' r' h'
      exact absurd h' (List.not_mem_nil _)
    obtain ⟨c, hc, hn⟩ := hinv n r hmem
    simp only [depsOf, hc, Option.map_some, Option.getD_some]
    exact hn
  · intro hall
    exact not_dep_foldl ds n r ⟨[], [], []⟩ hall (by simp [depsOf, findCell])

/-- The construction sequence used as witness: node 0 produces "x", node 1
consumes "x". -/
def c5Ex : List Decl := [Decl.promise 0 "x" Ty.tInt, Decl.future 1 "x" Ty.tInt]

/-- Witness for `c5_registration_edges`: in `c5Ex` the consumer (node 1) is
in the dependents of "x" and the pure producer (node 0) is not. -/
theorem c5_registration_edges_witness :
    1 ∈ depsOf (buildGraph c5Ex) "x" ∧ 0 ∉ depsOf (buildGraph c5Ex) "x" :=
  ⟨(c5_registration_edges c5Ex 1 "x").1 (by decide),
   (c5_registration_edges c5Ex 0 "x").2 (by decide)⟩

/-- Mapping a pointwise-constant function yields a replicated list. -/
theorem list_map_const_eq {α β : Type} (l : List α) (f : α → β) (b : β)
    (h : ∀ a, f a = b) : l.map f = List.replicate l.length b := by
  induction l with
  | nil => rfl
  | cons x xs ih => simp [h, ih, List.replicate_succ]

/-- Mapping pointwise-equal functions yields equal lists. -/
theorem list_map_eq {α β : Type} (l : List α) (f g : α → β)
    (h : ∀ a, f a = g a) : l.map f = l.map g := by
  induction l with
  | nil => rfl
  | cons x xs ih => simp [h, ih]

/-- Claim C6 counterexample — `node_graph::reset` does not clear
`m_resourceCount` (on `c6Graph` the count stays 3, not 0), and with
`destroy_resources = true` it does not drop the stored resource value
(still 7): the parameter is never read by the body. -/
theorem c6_reset_counterexample :
    (ngReset 2 c6Graph false).nodes.map NGNode.resourceCount = [3] ∧
    (ngReset 2 c6Graph false).nodes.map NGNode.resourceCount ≠ [0] ∧
    (ngReset 2 c6Graph true).resources.map NGRes.value = [7] := by
  refine ⟨by decide, by decide, by decide⟩

/-- Claim C6 amended — `reset` clears `executed` and `scheduled` on every
node and `available` on every resource (re-stamping `time_available` from
the clock); it does NOT clear the arrival count `m_resourceCount`, and the
`destroy_resources` argument is ignored, so resource values are never
dropped; a second `reset` (at the same clock reading) changes nothing. -/
theorem c6_reset_amended (g : NGGraph) (b b' : Bool) (now now' : Nat) :
    (ngReset now g b).nodes.map NGNode.executed =
      List.replicate g.nodes.length false ∧
    (ngReset now g b).nodes.map NGNode.scheduled =
      List.replicate g.nodes.length false ∧
    (ngReset now g b).nodes.map NGNode.resourceCount =
      g.nodes.map NGNode.resourceCount ∧
    (ngReset now g b).resources.map NGRes.isAvailable =
      List.replicate g.resources.length false ∧
    (ngReset now g b).resources.map NGRes.value =
      g.resources.map NGRes.value ∧
    ngReset now (ngReset now' g b') b = ngReset now g b := by
  refine ⟨?_, ?_, ?_, ?_, ?_, ?_⟩
  · rw [ngReset]
    simp only [List.map_map]
    exact list_map_const_eq g.nodes _ false (fun a => rfl)
  · rw [ngReset]
    simp only [List.map_map]
    exact list_map_const_eq g.nodes _ false (fun a => rfl)
  · rw [ngReset]
    simp only [List.map_map]
    exact list_map_eq g.nodes _ _ (fun a => rfl)
  · rw [ngReset]
    simp only [List.map_map]
    exact list_map_const_eq g.resources _ false (fun a => rfl)
  · rw [ngReset]
    simp only [List.map_map]
    exact list_map_eq g.resources _ _ (fun a => rfl)
  · rw [ngReset, ngReset, ngReset]
    simp only [List.map_map]
    congr 1

/-- Declaring under an already-interned name never changes the cell's
contents tag, whatever type the new declaration uses: neither
`create_PromiseResource` nor `create_FutureResource` compares types. -/
theorem tagOf_applyDecl_existing (s : BState) (d : Decl) (r : String)
    (h : findCell s.cells r ≠ none) :
    tagOf (applyDecl s d) r = tagOf s r := by
  cases d with
  | promise n0 r0 t0 =>
    cases hf : findCell s.cells r0 with
    | none =>
      have hr : r0 ≠ r := by
        intro he
        rw [he] at hf
        exact h hf
      simp only [applyDecl, hf, tagOf]
      rw [findCell_cons, if_neg hr]
    | some c0 =>
      simp only [applyDecl, hf, tagOf]
  | future n0 r0 t0 =>
    cases hf : findCell s.cells r0 with
    | none =>
      have hr : r0 ≠ r := by
        intro he
        rw [he] at hf
        exact h hf
      simp only [applyDecl, hf, tagOf]
      rw [findCell_cons, if_neg hr]
    | some c0 =>
      simp only [applyDecl, hf, tagOf]
      by_cases hr : r0 = r
      · rw [← hr]
        rw [findCell_updateCell_self s.cells r0 c0 ⟨c0.tag, c0.deps ++ [n0]⟩ hf]
        rw [hf]
        rfl
      · rw [findCell_updateCell_ne s.cells r0 r _ hr]

/-- The mismatched construction sequence: node 0 promises "x" at type
`int`, node 1 then declares "x" as a future at type `bool`. -/
def exMismatch : List Decl := [Decl.promise 0 "x" Ty.tInt, Decl.future 1 "x" Ty.tBool]

/-- Claim C7 counterexample — declaring "x" as an input at type `bool`
after it was interned at type `int` does NOT fail the graph build: the
registration completes normally (the consumer edge is recorded in
`required` and the dependent is pushed), the cell keeps its `int` tag, and
no TypeMismatch outcome exists anywhere in `create_PromiseResource` /
`create_FutureResource` — the mismatch only surfaces later, when a typed
access `any_cast<bool>` on the cell fails. -/
theorem c7_counterexample :
    (buildGraph exMismatch).required = [(1, "x")] ∧
    depsOf (buildGraph exMismatch) "x" = [1] ∧
    tagOf (buildGraph exMismatch) "x" = some Ty.tInt ∧
    anyCastOk (buildGraph exMismatch) "x" Ty.tBool = false := by
  refine ⟨by decide, by decide, by decide, by decide⟩

/-- Claim C7 amended — declaring a resource under an already-interned name
always reuses the existing cell with no type check: the cell's tag is
unchanged whatever type the new declaration uses, registration never fails,
and a type disagreement surfaces only as a failed `any_cast` when the typed
handle accesses the value (here: after `exMismatch`, access at `int` still
succeeds and access at `bool` fails). -/
theorem c7_reuse_without_typecheck :
    (∀ (s : BState) (d : Decl) (r : String), findCell s.cells r ≠ none →
        tagOf (applyDecl s d) r = tagOf s r) ∧
    anyCastOk (buildGraph exMismatch) "x" Ty.tInt = true ∧
    anyCastOk (buildGraph exMismatch) "x" Ty.tBool = false := by
  exact ⟨tagOf_applyDecl_existing, by decide, by decide⟩

/-- The one-promise build state used to witness `c7_reuse_without_typecheck`. -/
def c7S0 : BState := buildGraph [Decl.promise 0 "x" Ty.tInt]

/-- Witness for `c7_reuse_without_typecheck`: re-declaring the interned "x"
as a `bool` future leaves its tag unchanged. -/
theorem c7_reuse_without_typecheck_witness :
    tagOf (applyDecl c7S0 (Decl.future 1 "x" Ty.tBool)) "x" = tagOf c7S0 "x" :=
  c7_reuse_without_typecheck.1 c7S0 (Decl.future 1 "x" Ty.tBool) "x" (by decide)

/-- A name declared as an input first and produced afterwards: node 0
declares "x" as a future at `int`, node 1 later promises "x" at `int`. -/
def exFutureFirst : List Decl := [Decl.future 0 "x" Ty.tInt, Decl.promise 1 "x" Ty.tInt]

/-- Claim C9 — in the framegraph2.h variant, a name first interned by
`create_FutureResource<T>` gets a cell holding
`std::shared_ptr<Resource<T>>` (tag `Ty.res T`), not a value of type `T`,
so `any_cast<T&>` on it fails even after a producer later promises the same
name (the promise branch for an existing name leaves the cell untouched);
the node_graph.h variant instead interns a default-constructed `T`
(`make_any<T>()`), on which the typed access succeeds. -/
theorem c9_fg_future_cell_type :
    tagOf (fgBuild exFutureFirst) "x" = some (Ty.res Ty.tInt) ∧
    anyCastOk (fgBuild exFutureFirst) "x" Ty.tInt = false ∧
    tagOf (buildGraph exFutureFirst) "x" = some Ty.tInt ∧
    anyCastOk (buildGraph exFutureFirst) "x" Ty.tInt = true := by
  refine ⟨by decide, by decide, by decide, by decide⟩
